import Mathlib

/-!
Shallow embedding of `security/tomoyo/condition.c` (condition-matching engine
of the TOMOYO mandatory-access-control subsystem) and proofs about it.

The embedding follows the source file function by function:

* `tomoyo_same_condition`   — structural equality used by interning (lines 21-27);
* `tomoyo_commit_condition` — the interning commit (lines 66-103), with the
  external collaborators (lock interruption, `tomoyo_memory_ok`) passed in as
  parameters;
* `tomoyo_get_condition`    — the two-pass parser (lines 112-244), split into
  the sizing pass (`tomoyo_dry_words`), the NUL-restoration walk
  (`tomoyo_restore`, lines 222-235) and the build pass (`tomoyo_build_words`);
* `tomoyo_condition`        — the evaluator (lines 304-598); `tomoyo_get_attributes`
  touches only external objects (dentries, inodes), so a request carries the
  post-resolution metadata snapshot (`ObjInfo`).

Machine integers are modelled as `Nat`; every comparison in the source is an
unsigned comparison on values that are never made to overflow, so no explicit
modular reduction is needed.
-/

/-! ## Data model -/

/-- The condition-keyword indices of `enum tomoyo_conditions_index` used by
`condition.c`, plus the sentinel `TOMOYO_NUMBER_UNION` that marks a side
carrying an inline numeric/group literal. -/
inductive CondIndex where
  | TASK_UID | TASK_EUID | TASK_SUID | TASK_FSUID
  | TASK_GID | TASK_EGID | TASK_SGID | TASK_FSGID
  | TASK_PID | TASK_PPID
  | TYPE_IS_SOCKET | TYPE_IS_SYMLINK | TYPE_IS_FILE | TYPE_IS_BLOCK_DEV
  | TYPE_IS_DIRECTORY | TYPE_IS_CHAR_DEV | TYPE_IS_FIFO
  | MODE_SETUID | MODE_SETGID | MODE_STICKY
  | MODE_OWNER_READ | MODE_OWNER_WRITE | MODE_OWNER_EXECUTE
  | MODE_GROUP_READ | MODE_GROUP_WRITE | MODE_GROUP_EXECUTE
  | MODE_OTHERS_READ | MODE_OTHERS_WRITE | MODE_OTHERS_EXECUTE
  | PATH1_UID | PATH1_GID | PATH1_INO | PATH1_MAJOR | PATH1_MINOR
  | PATH1_TYPE | PATH1_DEV_MAJOR | PATH1_DEV_MINOR | PATH1_PERM
  | PATH2_UID | PATH2_GID | PATH2_INO | PATH2_MAJOR | PATH2_MINOR
  | PATH2_TYPE | PATH2_DEV_MAJOR | PATH2_DEV_MINOR | PATH2_PERM
  | PATH1_PARENT_UID | PATH1_PARENT_GID | PATH1_PARENT_INO | PATH1_PARENT_PERM
  | PATH2_PARENT_UID | PATH2_PARENT_GID | PATH2_PARENT_INO | PATH2_PARENT_PERM
  | NUMBER_UNION
  deriving DecidableEq, Repr

/-- The four path roles of `enum tomoyo_path_stat_index`. -/
inductive PathStat where
  | PATH1 | PATH1_PARENT | PATH2 | PATH2_PARENT
  deriving DecidableEq, Repr

/-- Struct `tomoyo_condition_element`: one clause `left OP right` where
`equals = false` encodes the negated (`!=`) comparison. -/
structure CondElement where
  left : CondIndex
  right : CondIndex
  equals : Bool
  deriving DecidableEq, Repr

/-- Struct `tomoyo_number_union` as used here: a closed interval
`values = (min, max)` or, when `group` is set, a reference to a named number
group whose membership test is delegated to a collaborator. -/
structure NumberUnion where
  values : Nat × Nat
  group : Option (List Char)
  deriving DecidableEq, Repr

/-- Struct `tomoyo_mini_stat`: the metadata snapshot of one path role. -/
structure MiniStat where
  uid : Nat
  gid : Nat
  ino : Nat
  mode : Nat
  dev : Nat
  rdev : Nat
  deriving DecidableEq, Repr

/-- Struct `tomoyo_obj_info` after `tomoyo_get_attributes` ran: per path role a
validity flag and a metadata record.  The dentry/inode fetch itself touches only
external filesystem objects, so the request carries the resolved snapshot; the
`validate_done` flag in the source only memoizes this per-request-constant
resolution. -/
structure ObjInfo where
  stat_valid : PathStat → Bool
  stat : PathStat → MiniStat

/-- Struct `tomoyo_request_info` as far as this unit reads it. -/
structure RequestInfo where
  obj : Option ObjInfo

/-- The external inputs of the evaluator: the current task credentials
(`current_uid()` and friends) and the group-membership collaborator
`tomoyo_number_matches_group`. -/
structure Env where
  uid : Nat
  euid : Nat
  suid : Nat
  fsuid : Nat
  gid : Nat
  egid : Nat
  sgid : Nat
  fsgid : Nat
  pid : Nat
  ppid : Nat
  number_matches_group : Nat → Nat → List Char → Bool

/-! ## Mode-bit constants (`<linux/stat.h>` values read by the switch) -/

def S_IFSOCK : Nat := 0xC000
def S_IFLNK : Nat := 0xA000
def S_IFREG : Nat := 0x8000
def S_IFBLK : Nat := 0x6000
def S_IFDIR : Nat := 0x4000
def S_IFCHR : Nat := 0x2000
def S_IFIFO : Nat := 0x1000
def S_ISUID : Nat := 0x800
def S_ISGID : Nat := 0x400
def S_ISVTX : Nat := 0x200
def S_IRUSR : Nat := 0x100
def S_IWUSR : Nat := 0x80
def S_IXUSR : Nat := 0x40
def S_IRGRP : Nat := 0x20
def S_IWGRP : Nat := 0x10
def S_IXGRP : Nat := 0x8
def S_IROTH : Nat := 0x4
def S_IWOTH : Nat := 0x2
def S_IXOTH : Nat := 0x1
def S_IFMT : Nat := 0xF000
def S_IALLUGO : Nat := 0xFFF

/-- Kernel `MAJOR` macro: high bits of a `dev_t`. -/
def devMajor (dev : Nat) : Nat := dev / 2 ^ 20

/-- Kernel `MINOR` macro: low 20 bits of a `dev_t`. -/
def devMinor (dev : Nat) : Nat := dev % 2 ^ 20

/-! ## Evaluator (`tomoyo_condition`, lines 304-598) -/

/-- The first inner switch of the path-attribute default branch
(lines 432-471): which path role a path-derived keyword reads; `none` for every
keyword that is not path-derived (the switch default, `goto out`). -/
def tomoyo_stat_index : CondIndex → Option PathStat
  | .PATH1_UID | .PATH1_GID | .PATH1_INO | .PATH1_MAJOR | .PATH1_MINOR
  | .PATH1_TYPE | .PATH1_DEV_MAJOR | .PATH1_DEV_MINOR | .PATH1_PERM =>
      some .PATH1
  | .PATH2_UID | .PATH2_GID | .PATH2_INO | .PATH2_MAJOR | .PATH2_MINOR
  | .PATH2_TYPE | .PATH2_DEV_MAJOR | .PATH2_DEV_MINOR | .PATH2_PERM =>
      some .PATH2
  | .PATH1_PARENT_UID | .PATH1_PARENT_GID | .PATH1_PARENT_INO
  | .PATH1_PARENT_PERM => some .PATH1_PARENT
  | .PATH2_PARENT_UID | .PATH2_PARENT_GID | .PATH2_PARENT_INO
  | .PATH2_PARENT_PERM => some .PATH2_PARENT
  | _ => none

/-- The second inner switch (lines 475-520): which field of the resolved
`tomoyo_mini_stat` a path-derived keyword evaluates to. -/
def tomoyo_stat_value (stat : MiniStat) : CondIndex → Nat
  | .PATH1_UID | .PATH2_UID | .PATH1_PARENT_UID | .PATH2_PARENT_UID => stat.uid
  | .PATH1_GID | .PATH2_GID | .PATH1_PARENT_GID | .PATH2_PARENT_GID => stat.gid
  | .PATH1_INO | .PATH2_INO | .PATH1_PARENT_INO | .PATH2_PARENT_INO => stat.ino
  | .PATH1_MAJOR | .PATH2_MAJOR => devMajor stat.dev
  | .PATH1_MINOR | .PATH2_MINOR => devMinor stat.dev
  | .PATH1_TYPE | .PATH2_TYPE => stat.mode &&& S_IFMT
  | .PATH1_DEV_MAJOR | .PATH2_DEV_MAJOR => devMajor stat.rdev
  | .PATH1_DEV_MINOR | .PATH2_DEV_MINOR => devMinor stat.rdev
  | .PATH1_PERM | .PATH2_PERM | .PATH1_PARENT_PERM | .PATH2_PARENT_PERM =>
      stat.mode &&& S_IALLUGO
  | _ => 0

/-- The default branch of the big switch (lines 422-523): resolving a
path-derived attribute.  `none` models every `goto out` there: no `r->obj`,
a keyword outside the path set, or an invalid (`!obj->stat_valid`) slot. -/
def tomoyo_eval_path (obj : Option ObjInfo) (index : CondIndex) : Option Nat :=
  match obj with
  | none => none
  | some o =>
    match tomoyo_stat_index index with
    | none => none
    | some si =>
      if o.stat_valid si then some (tomoyo_stat_value (o.stat si) index)
      else none

/-- The big per-side switch (lines 331-523): a side's keyword resolved to its
scalar value; `TOMOYO_NUMBER_UNION` leaves `value = 0` (fetched later) and the
path-derived keywords fall to the default branch. -/
def tomoyo_eval_index (env : Env) (obj : Option ObjInfo) :
    CondIndex → Option Nat
  | .TASK_UID => some env.uid
  | .TASK_EUID => some env.euid
  | .TASK_SUID => some env.suid
  | .TASK_FSUID => some env.fsuid
  | .TASK_GID => some env.gid
  | .TASK_EGID => some env.egid
  | .TASK_SGID => some env.sgid
  | .TASK_FSGID => some env.fsgid
  | .TASK_PID => some env.pid
  | .TASK_PPID => some env.ppid
  | .TYPE_IS_SOCKET => some S_IFSOCK
  | .TYPE_IS_SYMLINK => some S_IFLNK
  | .TYPE_IS_FILE => some S_IFREG
  | .TYPE_IS_BLOCK_DEV => some S_IFBLK
  | .TYPE_IS_DIRECTORY => some S_IFDIR
  | .TYPE_IS_CHAR_DEV => some S_IFCHR
  | .TYPE_IS_FIFO => some S_IFIFO
  | .MODE_SETUID => some S_ISUID
  | .MODE_SETGID => some S_ISGID
  | .MODE_STICKY => some S_ISVTX
  | .MODE_OWNER_READ => some S_IRUSR
  | .MODE_OWNER_WRITE => some S_IWUSR
  | .MODE_OWNER_EXECUTE => some S_IXUSR
  | .MODE_GROUP_READ => some S_IRGRP
  | .MODE_GROUP_WRITE => some S_IWGRP
  | .MODE_GROUP_EXECUTE => some S_IXGRP
  | .MODE_OTHERS_READ => some S_IROTH
  | .MODE_OTHERS_WRITE => some S_IWOTH
  | .MODE_OTHERS_EXECUTE => some S_IXOTH
  | .NUMBER_UNION => some 0
  | i => tomoyo_eval_path obj i

/-- The `is_bitop` classification (lines 526-540): exactly the twelve
permission-bit constants. -/
def tomoyo_is_bitop : CondIndex → Bool
  | .MODE_SETUID | .MODE_SETGID | .MODE_STICKY
  | .MODE_OWNER_READ | .MODE_OWNER_WRITE | .MODE_OWNER_EXECUTE
  | .MODE_GROUP_READ | .MODE_GROUP_WRITE | .MODE_GROUP_EXECUTE
  | .MODE_OTHERS_READ | .MODE_OTHERS_WRITE | .MODE_OTHERS_EXECUTE => true
  | _ => false

/-- The four permission-bits path fields accepted as the counterpart of a
bit-operand (the switch at lines 571-575 and 581-585). -/
def tomoyo_is_perm_selector : CondIndex → Bool
  | .PATH1_PERM | .PATH1_PARENT_PERM | .PATH2_PERM | .PATH2_PARENT_PERM => true
  | _ => false

/-- One iteration of the evaluator's clause loop (lines 320-596): resolves both
sides, fetches inline operands from the unconsumed `numbers` list in source
order (left before right), then applies the group / interval / bit-operation /
scalar rules.  Returns the clause's success together with the numbers that
remain unconsumed.  An exhausted `numbers` list cannot happen for a condition
whose operand count matches its operand array (the parser guarantees it); it is
mapped to clause failure. -/
def tomoyo_check_clause (env : Env) (obj : Option ObjInfo)
    (c : CondElement) (numbers : List NumberUnion) :
    Bool × List NumberUnion :=
  match tomoyo_eval_index env obj c.left with
  | none => (false, numbers)
  | some lv =>
    match tomoyo_eval_index env obj c.right with
    | none => (false, numbers)
    | some rv =>
      let fetchLeft : Nat × Nat × List NumberUnion :=
        if c.left = CondIndex.NUMBER_UNION then
          match numbers with
          | [] => (lv, lv, [])
          | u :: rest => (u.values.1, u.values.2, rest)
        else (lv, lv, numbers)
      match fetchLeft with
      | (lmin, lmax, numbers1) =>
        if c.right = CondIndex.NUMBER_UNION then
          match numbers1 with
          | [] => (false, numbers1)
          | u :: rest =>
            match u.group with
            | some g =>
              (env.number_matches_group lmin lmax g == c.equals, rest)
            | none =>
              ((decide (lmin ≤ u.values.2 ∧ lmax ≥ u.values.1)) == c.equals,
               rest)
        else if tomoyo_is_bitop c.left && tomoyo_is_bitop c.right then
          (false, numbers1)
        else if tomoyo_is_bitop c.left then
          (if tomoyo_is_perm_selector c.right then
             (decide (lmax &&& rv ≠ 0)) == c.equals
           else false, numbers1)
        else if tomoyo_is_bitop c.right then
          (if tomoyo_is_perm_selector c.left then
             (decide (lmax &&& rv ≠ 0)) == c.equals
           else false, numbers1)
        else
          ((decide (lmin ≤ rv ∧ lmax ≥ rv)) == c.equals, numbers1)

/-- The evaluator's clause loop: first failing clause returns `false`
(the `goto out` at line 594); an empty clause list yields `true`. -/
def tomoyo_condition_loop (env : Env) (obj : Option ObjInfo) :
    List CondElement → List NumberUnion → Bool
  | [], _ => true
  | c :: rest, numbers =>
    match tomoyo_check_clause env obj c numbers with
    | (true, numbers1) => tomoyo_condition_loop env obj rest numbers1
    | (false, _) => false

/-- Struct `tomoyo_condition` in structured form: the header counts plus the
trailing clause and operand arrays.  `size` mirrors the byte size the parser
computes at lines 213-215. -/
structure TomoyoCondition where
  size : Nat
  condc : Nat
  numbers_count : Nat
  condp : List CondElement
  numbers : List NumberUnion
  deriving DecidableEq, Repr

/-- Function `tomoyo_condition` (lines 304-598): a null condition matches vacuously,
otherwise the clause loop runs over the trailing arrays. -/
def tomoyo_condition (env : Env) (r : RequestInfo)
    (cond : Option TomoyoCondition) : Bool :=
  match cond with
  | none => true
  | some cond => tomoyo_condition_loop env r.obj cond.condp cond.numbers

/-! ## Parser (`tomoyo_get_condition`, lines 112-244)

The source tokenizes the caller-owned buffer in place: the clause separator
space and the operator byte (`=`, or the `!` of `!=`) are overwritten with NUL
during the sizing pass and restored afterwards (lines 222-235).  The embedding
splits the buffer into its space-separated words first (the same tokenization,
word by word) and reassembles the mutated buffer with `tomoyo_join`; the byte
content of the mutated buffer is identical to the one the source produces. -/

/-- The NUL byte the tokenizer writes over separators and operators. -/
def NUL : Char := Char.ofNat 0

/-- Splits a buffer at every space, the way the repeated
`strchr(pos, ' ')` calls of the clause loop do (lines 142-148).  Never returns
an empty list; a trailing space yields a trailing empty word. -/
def tomoyo_words : List Char → List (List Char)
  | [] => [[]]
  | c :: rest =>
    if c = ' ' then [] :: tomoyo_words rest
    else
      match tomoyo_words rest with
      | w :: ws => (c :: w) :: ws
      | [] => [[c]]

/-- Joins words back with a separator byte; with `' '` it inverts
`tomoyo_words`, with `NUL` it rebuilds the mutated buffer. -/
def tomoyo_join (sep : Char) : List (List Char) → List Char
  | [] => []
  | [w] => w
  | w :: ws => w ++ sep :: tomoyo_join sep ws

/-- Mirror of `strchr`: splits a list at the first occurrence of `c`, or `none`. -/
def tomoyo_split_at (c : Char) : List Char → Option (List Char × List Char)
  | [] => none
  | x :: xs =>
    if x = c then some ([], xs)
    else
      match tomoyo_split_at c xs with
      | none => none
      | some (b, a) => some (x :: b, a)

/-- Splits one clause word at its operator, mirroring lines 149-158: the first
`=` must exist and not be the first byte; a preceding `!` makes the comparison
negated; a bare `==` is rejected.  Returns
`(left_word, is_not, right_word, mutated_word)` where `mutated_word` is the
word with its operator byte (`=`, or the `!` of `!=`) overwritten by NUL, or
`none` on the `goto out` paths. -/
def tomoyo_split_clause (word : List Char) :
    Option (List Char × Bool × List Char × List Char) :=
  match tomoyo_split_at '=' word with
  | none => none
  | some (before, after) =>
    if before = [] then none
    else if before.getLast? = some '!' then
      some (before.dropLast, true, after,
            before.dropLast ++ NUL :: '=' :: after)
    else if after.head? = some '=' then none
    else some (before, false, after, before ++ NUL :: after)

/-- Modelled from the spec: the keyword table `tomoyo_condition_keyword` lives
in a unit outside `src/` (only `condition.c` is present); the spec fixes the
closed keyword set — process-credential selectors (`task.uid` and friends,
spelled as in the spec's own example expressions), file-type and
permission-bit constants, and the path-attribute selectors for the four path
roles. -/
def tomoyo_condition_keyword : List (List Char × CondIndex) :=
  [("task.uid".toList, .TASK_UID), ("task.euid".toList, .TASK_EUID),
   ("task.suid".toList, .TASK_SUID), ("task.fsuid".toList, .TASK_FSUID),
   ("task.gid".toList, .TASK_GID), ("task.egid".toList, .TASK_EGID),
   ("task.sgid".toList, .TASK_SGID), ("task.fsgid".toList, .TASK_FSGID),
   ("task.pid".toList, .TASK_PID), ("task.ppid".toList, .TASK_PPID),
   ("socket".toList, .TYPE_IS_SOCKET), ("symlink".toList, .TYPE_IS_SYMLINK),
   ("file".toList, .TYPE_IS_FILE), ("block".toList, .TYPE_IS_BLOCK_DEV),
   ("directory".toList, .TYPE_IS_DIRECTORY), ("char".toList, .TYPE_IS_CHAR_DEV),
   ("fifo".toList, .TYPE_IS_FIFO),
   ("S_ISUID".toList, .MODE_SETUID), ("S_ISGID".toList, .MODE_SETGID),
   ("S_ISVTX".toList, .MODE_STICKY),
   ("S_IRUSR".toList, .MODE_OWNER_READ), ("S_IWUSR".toList, .MODE_OWNER_WRITE),
   ("S_IXUSR".toList, .MODE_OWNER_EXECUTE),
   ("S_IRGRP".toList, .MODE_GROUP_READ), ("S_IWGRP".toList, .MODE_GROUP_WRITE),
   ("S_IXGRP".toList, .MODE_GROUP_EXECUTE),
   ("S_IROTH".toList, .MODE_OTHERS_READ), ("S_IWOTH".toList, .MODE_OTHERS_WRITE),
   ("S_IXOTH".toList, .MODE_OTHERS_EXECUTE),
   ("path1.uid".toList, .PATH1_UID), ("path1.gid".toList, .PATH1_GID),
   ("path1.ino".toList, .PATH1_INO), ("path1.major".toList, .PATH1_MAJOR),
   ("path1.minor".toList, .PATH1_MINOR), ("path1.type".toList, .PATH1_TYPE),
   ("path1.dev_major".toList, .PATH1_DEV_MAJOR),
   ("path1.dev_minor".toList, .PATH1_DEV_MINOR),
   ("path1.perm".toList, .PATH1_PERM),
   ("path2.uid".toList, .PATH2_UID), ("path2.gid".toList, .PATH2_GID),
   ("path2.ino".toList, .PATH2_INO), ("path2.major".toList, .PATH2_MAJOR),
   ("path2.minor".toList, .PATH2_MINOR), ("path2.type".toList, .PATH2_TYPE),
   ("path2.dev_major".toList, .PATH2_DEV_MAJOR),
   ("path2.dev_minor".toList, .PATH2_DEV_MINOR),
   ("path2.perm".toList, .PATH2_PERM),
   ("path1.parent.uid".toList, .PATH1_PARENT_UID),
   ("path1.parent.gid".toList, .PATH1_PARENT_GID),
   ("path1.parent.ino".toList, .PATH1_PARENT_INO),
   ("path1.parent.perm".toList, .PATH1_PARENT_PERM),
   ("path2.parent.uid".toList, .PATH2_PARENT_UID),
   ("path2.parent.gid".toList, .PATH2_PARENT_GID),
   ("path2.parent.ino".toList, .PATH2_PARENT_INO),
   ("path2.parent.perm".toList, .PATH2_PARENT_PERM)]

/-- Function `tomoyo_condition_type` (lines 37-45): linear scan of the keyword table;
`none` models the `TOMOYO_MAX_CONDITION_KEYWORD` miss. -/
def tomoyo_condition_type (word : List Char) : Option CondIndex :=
  (tomoyo_condition_keyword.find? fun p => p.1 == word).map Prod.snd

/-- Modelled from the spec: decimal digit-string reader of the external
literal parser. -/
def tomoyo_parse_decimal (w : List Char) : Option Nat :=
  if w ≠ [] ∧ w.all Char.isDigit then
    some (w.foldl (fun n c => n * 10 + (c.toNat - 48)) 0)
  else none

/-- Modelled from the spec: the external collaborator
`tomoyo_parse_number_union` (not part of `src/`), which consumes one operand
word and yields `N`, `N-M`, or `@group_name` — a degenerate interval, a closed
interval, or a group reference. -/
def tomoyo_parse_number_union (w : List Char) : Option NumberUnion :=
  match w with
  | '@' :: name =>
    if name = [] then none else some { values := (0, 0), group := some name }
  | _ =>
    match tomoyo_split_at '-' w with
    | some (a, b) =>
      match tomoyo_parse_decimal a, tomoyo_parse_decimal b with
      | some x, some y => some { values := (x, y), group := none }
      | _, _ => none
    | none =>
      (tomoyo_parse_decimal w).map fun x => { values := (x, x), group := none }

/-- The restoration walk (lines 222-235): every NUL byte is put back using
parity bookkeeping — an even-numbered NUL was an operator (`!` when the next
byte is `=`, plain `=` otherwise), an odd-numbered one was the clause
separator space.  The lookahead at the buffer's last byte reads the original
terminator, which is never `=`; `List.head?` models it. -/
def tomoyo_restore : List Char → Bool → List Char
  | [], _ => []
  | c :: rest, flag =>
    if c = NUL then
      (if flag then ' '
       else if rest.head? = some '=' then '!'
       else '=') :: tomoyo_restore rest (!flag)
    else c :: tomoyo_restore rest flag

/-- The sizing (dry-run) pass, lines 123-206 with `condp = NULL`: walks the
clause words in order, splits each at its operator, counts one clause per word
and one prospective numeric operand per side whose keyword lookup misses, and
collects the mutated words.  The final word, when empty (buffer exhausted or
trailing separator), hits the `if (!*left_word) break` at line 130. -/
def tomoyo_dry_words :
    List (List Char) → Option (Nat × Nat × List (List Char))
  | [] => some (0, 0, [])
  | [w] =>
    if w = [] then some (0, 0, [[]])
    else
      match tomoyo_split_clause w with
      | none => none
      | some (left_word, _, right_word, mutated) =>
        let nl := if (tomoyo_condition_type left_word).isSome then 0 else 1
        let nr := if (tomoyo_condition_type right_word).isSome then 0 else 1
        some (1, nl + nr, [mutated])
  | w :: v :: rest =>
    match tomoyo_split_clause w with
    | none => none
    | some (left_word, _, right_word, mutated) =>
      let nl := if (tomoyo_condition_type left_word).isSome then 0 else 1
      let nr := if (tomoyo_condition_type right_word).isSome then 0 else 1
      match tomoyo_dry_words (v :: rest) with
      | none => none
      | some (condc, numc, mws) => some (condc + 1, nl + nr + numc, mutated :: mws)

/-- Build-pass handling of one side (lines 161-176 for the left, 181-193 for
the right, with `condp` non-NULL): a keyword resolves to its index; otherwise
the side becomes `TOMOYO_NUMBER_UNION` and the external literal parser must
accept the word — except that a left-hand group reference (`@` word) is
rejected outright (line 171). -/
def tomoyo_build_side (isLeft : Bool) (word : List Char) :
    Option (CondIndex × Option NumberUnion) :=
  match tomoyo_condition_type word with
  | some k => some (k, none)
  | none =>
    if isLeft ∧ word.head? = some '@' then none
    else
      match tomoyo_parse_number_union word with
      | none => none
      | some u => some (.NUMBER_UNION, some u)

/-- Build-pass handling of one clause word: both sides resolved, the clause
element written (`equals = !is_not`, line 201) and the per-clause operands
emitted left before right. -/
def tomoyo_build_clause (w : List Char) :
    Option (CondElement × List NumberUnion) :=
  match tomoyo_split_clause w with
  | none => none
  | some (left_word, is_not, right_word, _) =>
    match tomoyo_build_side true left_word with
    | none => none
    | some (l, lu) =>
      match tomoyo_build_side false right_word with
      | none => none
      | some (r, ru) =>
        some ({ left := l, right := r, equals := !is_not },
              lu.toList ++ ru.toList)

/-- The build pass, the same clause loop run again with the freshly allocated
arrays (lines 123-206 with `condp` non-NULL): emits the clause elements and
the operand values in parse order. -/
def tomoyo_build_words :
    List (List Char) → Option (List CondElement × List NumberUnion)
  | [] => some ([], [])
  | [w] =>
    if w = [] then some ([], [])
    else
      match tomoyo_build_clause w with
      | none => none
      | some (c, nums) => some ([c], nums)
  | w :: v :: rest =>
    match tomoyo_build_clause w with
    | none => none
    | some (c, nums) =>
      match tomoyo_build_words (v :: rest) with
      | none => none
      | some (cs, nums2) => some (c :: cs, nums ++ nums2)

/-- Value of `sizeof(struct tomoyo_condition)` on the 32-bit build this kernel targets;
the claims depend only on the size formula, not on the constant. -/
def tomoyo_condition_header_size : Nat := 20

/-- Value of `sizeof(struct tomoyo_condition_element)`. -/
def tomoyo_condition_element_size : Nat := 3

/-- Value of `sizeof(struct tomoyo_number_union)`. -/
def tomoyo_number_union_size : Nat := 16

/-- The byte size computed at lines 213-215:
header + clause array + operand array. -/
def tomoyo_condition_size (condc numbers_count : Nat) : Nat :=
  tomoyo_condition_header_size
    + condc * tomoyo_condition_element_size
    + numbers_count * tomoyo_number_union_size

/-- Function `tomoyo_get_condition` (lines 112-244) up to the commit step: the sizing
pass runs over the original buffer, the mutated buffer is restored, and the
build pass re-tokenizes the restored buffer.  `none` models every failure
return (the partially built entry is freed on those paths, lines 237-243).
The commit into the interning store (line 211) is modelled separately as
`tomoyo_commit_condition`, since it consults external collaborators. -/
def tomoyo_get_condition (s : List Char) : Option TomoyoCondition :=
  match tomoyo_dry_words (tomoyo_words s) with
  | none => none
  | some (condc, numc, mutWords) =>
    let restored := tomoyo_restore (tomoyo_join NUL mutWords) false
    match tomoyo_build_words (tomoyo_words restored) with
    | none => none
    | some (condp, numbers) =>
      some { size := tomoyo_condition_size condc numc,
             condc := condc, numbers_count := numc,
             condp := condp, numbers := numbers }

/-- The clause words the parser actually processes: every space-separated word
except a trailing empty one (which only triggers the loop's exit test). -/
def tomoyo_live_words : List (List Char) → List (List Char)
  | [] => []
  | [w] => if w = [] then [] else [w]
  | w :: v :: rest => w :: tomoyo_live_words (v :: rest)

/-! ## Interning store (`tomoyo_same_condition`, `tomoyo_commit_condition`) -/

/-- Struct `tomoyo_condition` as the interning store sees it: the three header
counts plus the trailing byte region (`(char *)(ptr + 1)`), the clause array
followed by the operand array, as raw bytes. -/
structure RawCondition where
  size : Nat
  condc : Nat
  numbers_count : Nat
  tail : List Nat
  deriving DecidableEq, Repr

/-- A condition object as laid out by the parser: its trailing region holds
exactly `size - sizeof(struct tomoyo_condition)` bytes. -/
def RawCondition.WF (a : RawCondition) : Prop :=
  a.tail.length = a.size - tomoyo_condition_header_size

/-- Function `tomoyo_same_condition` (lines 21-27): the three counts must match and
`memcmp((char *)(a + 1), (char *)(b + 1), a->size - sizeof(*a))` must find the
trailing regions byte-identical. -/
def tomoyo_same_condition (a b : RawCondition) : Bool :=
  a.size == b.size && a.condc == b.condc &&
    a.numbers_count == b.numbers_count &&
    a.tail.take (a.size - tomoyo_condition_header_size)
      == b.tail.take (a.size - tomoyo_condition_header_size)

/-- The interning store: `tomoyo_condition_list`, each entry carrying its
`head.users` reference count. -/
abbrev InternList := List (RawCondition × Nat)

/-- The `list_for_each_entry_rcu` scan of `tomoyo_commit_condition`
(lines 77-84): the first structurally equal entry gets its reference count
incremented and is returned; `none` when no entry matches. -/
def tomoyo_merge_entry (entry : RawCondition) :
    InternList → Option (RawCondition × InternList)
  | [] => none
  | (c, users) :: rest =>
    if tomoyo_same_condition c entry then some (c, (c, users + 1) :: rest)
    else
      match tomoyo_merge_entry entry rest with
      | none => none
      | some (r, rest1) => some (r, (c, users) :: rest1)

/-- Function `tomoyo_commit_condition` (lines 66-103).  External collaborators are
parameters: `interrupted` is `mutex_lock_interruptible` failing, `memory_ok`
is the `tomoyo_memory_ok` policy-memory quota gate.  Returns the shared
object (`none` on failure, where the source frees the candidate) and the
updated list; a fresh entry is inserted at the head (`list_add_rcu`) with its
reference count set to 1. -/
def tomoyo_commit_condition (interrupted : Bool) (memory_ok : Bool)
    (store : InternList) (entry : RawCondition) :
    Option RawCondition × InternList :=
  if interrupted then (none, store)
  else
    match tomoyo_merge_entry entry store with
    | some (ptr, store1) => (some ptr, store1)
    | none =>
      if memory_ok then (some entry, (entry, 1) :: store)
      else (none, store)

/-! ## Auxiliary definitions used by the statements below -/

/-- A path-attribute slot the evaluator cannot read: the request has no object
at all, or the role's slot is invalid (its path node was absent or its inode
metadata was never resolved, so `tomoyo_get_attributes` left
`stat_valid` false). -/
def tomoyo_stat_unavailable (obj : Option ObjInfo) (si : PathStat) : Bool :=
  match obj with
  | none => true
  | some o => !o.stat_valid si

/-- The operand list as it stands after the evaluator's loop has processed a
prefix of the clause list: each clause consumes the operands its sides fetch,
strictly in order. -/
def tomoyo_nums_after (env : Env) (obj : Option ObjInfo)
    (nums : List NumberUnion) : List CondElement → List NumberUnion
  | [] => nums
  | c :: rest =>
    tomoyo_nums_after env obj (tomoyo_check_clause env obj c nums).2 rest

/-- A concrete task-credential environment for the closed instances below:
every credential is `u` and the group collaborator holds the interval
`[100, 200]`. -/
def testEnv (u : Nat) : Env :=
  { uid := u, euid := u, suid := u, fsuid := u, gid := u, egid := u,
    sgid := u, fsgid := u, pid := u, ppid := u,
    number_matches_group := fun lo hi _ => decide (lo ≤ 200 ∧ hi ≥ 100) }

/-- A concrete resolved metadata snapshot: all four roles valid, mode `0700`
plus a regular-file type. -/
def testObj : ObjInfo :=
  { stat_valid := fun _ => true,
    stat := fun _ =>
      { uid := 1000, gid := 1000, ino := 77, mode := S_IFREG + 0x1C0,
        dev := 0, rdev := 0 } }

/-! ## Helper lemmas: interning store -/

theorem tomoyo_merge_entry_not_found (entry : RawCondition) :
    ∀ store : InternList,
      (∀ p ∈ store, tomoyo_same_condition p.1 entry = false) →
      tomoyo_merge_entry entry store = none
  | [] => fun _ => rfl
  | (c, users) :: rest => fun h => by
      have hc := h (c, users) (by simp)
      have hr := tomoyo_merge_entry_not_found entry rest
        (fun p hp => h p (by simp [hp]))
      simp [tomoyo_merge_entry, hc, hr]

theorem tomoyo_merge_entry_found (entry : RawCondition) :
    ∀ (pre : InternList) (c : RawCondition) (users : Nat) (post : InternList),
      (∀ p ∈ pre, tomoyo_same_condition p.1 entry = false) →
      tomoyo_same_condition c entry = true →
      tomoyo_merge_entry entry (pre ++ (c, users) :: post) =
        some (c, pre ++ (c, users + 1) :: post)
  | [] => fun c users post _ hc => by simp [tomoyo_merge_entry, hc]
  | (d, du) :: pre => fun c users post h hc => by
      have hd := h (d, du) (by simp)
      have hr := tomoyo_merge_entry_found entry pre c users post
        (fun p hp => h p (by simp [hp])) hc
      simp [tomoyo_merge_entry, hd, hr]

/-! ## Claim theorems: evaluator basics and interning -/

/-- C4: evaluating a null/absent compiled condition against any request
returns true — the vacuous match representing "no condition attached"
(lines 314-315). -/
theorem tomoyo_condition_none_matches (env : Env) (r : RequestInfo) :
    tomoyo_condition env r none = true := rfl

/-- C6: for condition objects laid out by the parser (trailing region of
exactly `size - header` bytes), the structural-equality test used by interning
returns true exactly when the three header counts agree and the trailing byte
region (clause array followed by operand array) is byte-identical. -/
theorem tomoyo_same_condition_iff (a b : RawCondition)
    (ha : a.WF) (hb : b.WF) :
    tomoyo_same_condition a b = true ↔
      a.size = b.size ∧ a.condc = b.condc ∧
        a.numbers_count = b.numbers_count ∧ a.tail = b.tail := by
  unfold tomoyo_same_condition
  unfold RawCondition.WF at ha hb
  constructor
  · intro h
    simp only [Bool.and_eq_true, beq_iff_eq] at h
    obtain ⟨⟨⟨h1, h2⟩, h3⟩, h4⟩ := h
    refine ⟨h1, h2, h3, ?_⟩
    have hlen : a.tail.length = b.tail.length := by rw [ha, h1, hb]
    rwa [← ha, List.take_length, hlen, List.take_length] at h4
  · rintro ⟨h1, h2, h3, h4⟩
    simp only [Bool.and_eq_true, beq_iff_eq]
    exact ⟨⟨⟨h1, h2⟩, h3⟩, by rw [h4]⟩

/-- Closed witness for C6: two byte-identical three-byte-tail objects are
merged as equal. -/
theorem tomoyo_same_condition_iff_witness :
    tomoyo_same_condition ⟨23, 1, 0, [7, 8, 9]⟩ ⟨23, 1, 0, [7, 8, 9]⟩ = true :=
  (tomoyo_same_condition_iff ⟨23, 1, 0, [7, 8, 9]⟩ ⟨23, 1, 0, [7, 8, 9]⟩
    rfl rfl).mpr ⟨rfl, rfl, rfl, rfl⟩

/-- C3: the interning commit.  With the lock acquired (`interrupted = false`):
a structurally equal entry already in the collection gets its reference count
incremented, the candidate is discarded and the existing object returned; with
no equal entry and the quota admitting, the candidate is inserted at the head
with reference count 1 and returned; with the quota exceeded the candidate is
discarded and commit fails.  An interrupted lock acquisition fails the commit
and leaves the store untouched (the source also frees the candidate, a
memory-management effect outside the model). -/
theorem tomoyo_commit_condition_spec (store : InternList)
    (entry : RawCondition) (memory_ok : Bool) :
    (∀ pre c users post,
        store = pre ++ (c, users) :: post →
        (∀ p ∈ pre, tomoyo_same_condition p.1 entry = false) →
        tomoyo_same_condition c entry = true →
        tomoyo_commit_condition false memory_ok store entry =
          (some c, pre ++ (c, users + 1) :: post)) ∧
    ((∀ p ∈ store, tomoyo_same_condition p.1 entry = false) →
        memory_ok = true →
        tomoyo_commit_condition false memory_ok store entry =
          (some entry, (entry, 1) :: store)) ∧
    ((∀ p ∈ store, tomoyo_same_condition p.1 entry = false) →
        memory_ok = false →
        tomoyo_commit_condition false memory_ok store entry = (none, store)) ∧
    tomoyo_commit_condition true memory_ok store entry = (none, store) := by
  refine ⟨?_, ?_, ?_, rfl⟩
  · rintro pre c users post rfl hpre hc
    simp [tomoyo_commit_condition,
      tomoyo_merge_entry_found entry pre c users post hpre hc]
  · intro h hm
    subst hm
    simp [tomoyo_commit_condition, tomoyo_merge_entry_not_found entry store h]
  · intro h hm
    subst hm
    simp [tomoyo_commit_condition, tomoyo_merge_entry_not_found entry store h]

/-- Closed witness for C3: sharing bumps the count to 6, a fresh insert gets
count 1, a quota failure returns the store unchanged. -/
theorem tomoyo_commit_condition_spec_witness :
    tomoyo_commit_condition false true [(⟨23, 1, 0, [7, 8, 9]⟩, 5)]
        ⟨23, 1, 0, [7, 8, 9]⟩ =
      (some ⟨23, 1, 0, [7, 8, 9]⟩, [(⟨23, 1, 0, [7, 8, 9]⟩, 6)]) ∧
    tomoyo_commit_condition false true [] ⟨23, 1, 0, [7, 8, 9]⟩ =
      (some ⟨23, 1, 0, [7, 8, 9]⟩, [(⟨23, 1, 0, [7, 8, 9]⟩, 1)]) ∧
    tomoyo_commit_condition false false [] ⟨23, 1, 0, [7, 8, 9]⟩ =
      (none, []) :=
  ⟨(tomoyo_commit_condition_spec [(⟨23, 1, 0, [7, 8, 9]⟩, 5)]
      ⟨23, 1, 0, [7, 8, 9]⟩ true).1 [] ⟨23, 1, 0, [7, 8, 9]⟩ 5 [] rfl
      (by simp) (by decide),
   (tomoyo_commit_condition_spec [] ⟨23, 1, 0, [7, 8, 9]⟩ true).2.1
      (by simp) rfl,
   (tomoyo_commit_condition_spec [] ⟨23, 1, 0, [7, 8, 9]⟩ false).2.2.1
      (by simp) rfl⟩

/-- C10: parsing the empty expression succeeds with zero clauses, zero numeric
operands and a size of the bare header, and the resulting condition evaluates
to true for every request. -/
theorem tomoyo_parse_empty_matches_all :
    tomoyo_get_condition [] =
      some { size := tomoyo_condition_header_size, condc := 0,
             numbers_count := 0, condp := [], numbers := [] } ∧
    ∀ (env : Env) (r : RequestInfo),
      tomoyo_condition env r (tomoyo_get_condition []) = true :=
  ⟨by decide, fun _ _ => rfl⟩

/-! ## Helper lemmas: evaluator -/

theorem tomoyo_is_bitop_ne_number_union (i : CondIndex)
    (h : tomoyo_is_bitop i = true) : i ≠ CondIndex.NUMBER_UNION := fun hn => by
  subst hn
  exact absurd h (by decide)

theorem tomoyo_eval_index_path_eq (env : Env) (obj : Option ObjInfo)
    (i : CondIndex) (si : PathStat) (h : tomoyo_stat_index i = some si) :
    tomoyo_eval_index env obj i = tomoyo_eval_path obj i := by
  cases i <;> first
    | rfl
    | exact absurd h (by simp [tomoyo_stat_index])

theorem tomoyo_eval_index_unavailable (env : Env) (obj : Option ObjInfo)
    (i : CondIndex) (si : PathStat) (h : tomoyo_stat_index i = some si)
    (hu : tomoyo_stat_unavailable obj si = true) :
    tomoyo_eval_index env obj i = none := by
  rw [tomoyo_eval_index_path_eq env obj i si h]
  unfold tomoyo_eval_path
  cases obj with
  | none => rfl
  | some o =>
    rw [h]
    unfold tomoyo_stat_unavailable at hu
    simp only [Bool.not_eq_true'] at hu
    simp [hu]

theorem tomoyo_check_clause_fail (env : Env) (obj : Option ObjInfo)
    (c : CondElement) (numbers : List NumberUnion)
    (h : tomoyo_eval_index env obj c.left = none ∨
         tomoyo_eval_index env obj c.right = none) :
    tomoyo_check_clause env obj c numbers = (false, numbers) := by
  unfold tomoyo_check_clause
  rcases h with h | h
  · rw [h]
  · cases hl : tomoyo_eval_index env obj c.left with
    | none => rfl
    | some lv => rw [h]

theorem tomoyo_loop_false_of_bad (env : Env) (obj : Option ObjInfo) :
    ∀ (cs : List CondElement) (nums : List NumberUnion) (c : CondElement),
      c ∈ cs →
      ((∃ si, tomoyo_stat_index c.left = some si ∧
          tomoyo_stat_unavailable obj si = true) ∨
       (∃ si, tomoyo_stat_index c.right = some si ∧
          tomoyo_stat_unavailable obj si = true)) →
      tomoyo_condition_loop env obj cs nums = false
  | [], _, _, h, _ => absurd h (List.not_mem_nil _)
  | c0 :: rest, nums, c, h, hbad => by
      rcases List.mem_cons.mp h with rfl | hmem
      · have hfail : tomoyo_check_clause env obj c nums = (false, nums) := by
          apply tomoyo_check_clause_fail
          rcases hbad with ⟨si, h1, h2⟩ | ⟨si, h1, h2⟩
          · exact Or.inl (tomoyo_eval_index_unavailable env obj _ si h1 h2)
          · exact Or.inr (tomoyo_eval_index_unavailable env obj _ si h1 h2)
        simp [tomoyo_condition_loop, hfail]
      · cases hc : tomoyo_check_clause env obj c0 nums with
        | mk b n1 =>
          cases b
          · simp [tomoyo_condition_loop, hc]
          · simp only [tomoyo_condition_loop, hc]
            exact tomoyo_loop_false_of_bad env obj rest n1 c hmem hbad

theorem tomoyo_loop_true_iff (env : Env) (obj : Option ObjInfo) :
    ∀ (cs : List CondElement) (nums : List NumberUnion),
      tomoyo_condition_loop env obj cs nums = true ↔
        ∀ pre c post, cs = pre ++ c :: post →
          (tomoyo_check_clause env obj c
            (tomoyo_nums_after env obj nums pre)).1 = true
  | [], nums => by
      constructor
      · intro _ pre c post h
        exact absurd h (by simp)
      · intro _
        rfl
  | c0 :: rest, nums => by
      cases hc : tomoyo_check_clause env obj c0 nums with
      | mk b n1 =>
        cases b
        · simp only [tomoyo_condition_loop, hc]
          constructor
          · intro h
            cases h
          · intro h
            have h0 := h [] c0 rest rfl
            rw [tomoyo_nums_after, hc] at h0
            cases h0
        · simp only [tomoyo_condition_loop, hc]
          have IH := tomoyo_loop_true_iff env obj rest n1
          constructor
          · intro h pre c post hsplit
            cases pre with
            | nil =>
              simp only [List.nil_append, List.cons.injEq] at hsplit
              obtain ⟨rfl, rfl⟩ := hsplit
              simp [tomoyo_nums_after, hc]
            | cons p0 pre1 =>
              simp only [List.cons_append, List.cons.injEq] at hsplit
              obtain ⟨rfl, hrest⟩ := hsplit
              have hstep : tomoyo_nums_after env obj nums (c0 :: pre1) =
                  tomoyo_nums_after env obj n1 pre1 := by
                simp [tomoyo_nums_after, hc]
              rw [hstep]
              exact IH.mp h pre1 c post hrest
          · intro h
            apply IH.mpr
            intro pre c post hsplit
            have hstep : tomoyo_nums_after env obj nums (c0 :: pre) =
                tomoyo_nums_after env obj n1 pre := by
              simp [tomoyo_nums_after, hc]
            have hx := h (c0 :: pre) c post (by rw [hsplit]; rfl)
            rwa [hstep] at hx

/-! ## Claim theorems: evaluator clause rules -/

/-- C8: a clause referencing a path-derived attribute whose path role is
absent or whose metadata snapshot is unresolved fails the whole condition
(fail-closed): whenever such a clause is present the condition evaluates
false, and no error is surfaced — the result type is a plain boolean.
Moreover a condition evaluates true exactly when every clause, with the
operands the preceding clauses left over, succeeds. -/
theorem tomoyo_condition_fail_closed (env : Env) (r : RequestInfo)
    (cond : TomoyoCondition) :
    (∀ c ∈ cond.condp,
        ((∃ si, tomoyo_stat_index c.left = some si ∧
            tomoyo_stat_unavailable r.obj si = true) ∨
         (∃ si, tomoyo_stat_index c.right = some si ∧
            tomoyo_stat_unavailable r.obj si = true)) →
        tomoyo_condition env r (some cond) = false) ∧
    (tomoyo_condition env r (some cond) = true ↔
      ∀ pre c post, cond.condp = pre ++ c :: post →
        (tomoyo_check_clause env r.obj c
          (tomoyo_nums_after env r.obj cond.numbers pre)).1 = true) :=
  ⟨fun c hmem hbad =>
     tomoyo_loop_false_of_bad env r.obj cond.condp cond.numbers c hmem hbad,
   tomoyo_loop_true_iff env r.obj cond.condp cond.numbers⟩

/-- Closed witness for C8: a request with no object fails a `path1.uid`
clause and with it the whole condition. -/
theorem tomoyo_condition_fail_closed_witness :
    tomoyo_condition (testEnv 0) ⟨none⟩
      (some ⟨23, 1, 0, [⟨.PATH1_UID, .TASK_UID, true⟩], []⟩) = false :=
  (tomoyo_condition_fail_closed (testEnv 0) ⟨none⟩
      ⟨23, 1, 0, [⟨.PATH1_UID, .TASK_UID, true⟩], []⟩).1
    ⟨.PATH1_UID, .TASK_UID, true⟩ (by simp) (Or.inl ⟨.PATH1, rfl, rfl⟩)

/-- C1: a clause whose right side is an inline numeric-or-group operand.  When
the operand references a group, the clause succeeds exactly when the delegated
group-membership test on the left side's resolved interval equals the clause's
`equals` flag; otherwise it succeeds exactly when the interval-overlap test
`left.min <= right.max && left.max >= right.min` equals the flag.  The left
interval is the degenerate `[v, v]` of a resolved keyword, or the next
unconsumed operand when the left side is itself a literal. -/
theorem tomoyo_clause_number_union_rule (env : Env) (obj : Option ObjInfo)
    (c : CondElement) (numbers numbers1 rest : List NumberUnion)
    (u : NumberUnion) (lmin lmax : Nat)
    (hright : c.right = CondIndex.NUMBER_UNION)
    (hleft :
      (c.left ≠ CondIndex.NUMBER_UNION ∧
        tomoyo_eval_index env obj c.left = some lmin ∧ lmax = lmin ∧
        numbers1 = numbers) ∨
      (c.left = CondIndex.NUMBER_UNION ∧
        ∃ u0, numbers = u0 :: numbers1 ∧ lmin = u0.values.1 ∧
          lmax = u0.values.2))
    (hnum : numbers1 = u :: rest) :
    tomoyo_check_clause env obj c numbers =
      ((match u.group with
        | some g => env.number_matches_group lmin lmax g
        | none =>
            decide (lmin ≤ u.values.2 ∧ lmax ≥ u.values.1)) == c.equals,
       rest) := by
  rcases hleft with ⟨hne, hev, rfl, rfl⟩ | ⟨hl, u0, hnums, rfl, rfl⟩
  · subst hnum
    unfold tomoyo_check_clause
    rw [hev, hright]
    simp [tomoyo_eval_index, hne]
    cases u.group <;> rfl
  · subst hnums
    subst hnum
    unfold tomoyo_check_clause
    rw [hl, hright]
    simp [tomoyo_eval_index]
    cases u.group <;> rfl

/-- Closed witness for C1: right-hand interval `[10, 20]` with `equals = true`
succeeds against a left `task.uid` of 15 and fails against 25, the polarity
inverting with `equals = false`; a group operand delegates to the
collaborator. -/
theorem tomoyo_clause_number_union_rule_witness :
    tomoyo_check_clause (testEnv 15) none ⟨.TASK_UID, .NUMBER_UNION, true⟩
        [⟨(10, 20), none⟩] = (true, []) ∧
    tomoyo_check_clause (testEnv 25) none ⟨.TASK_UID, .NUMBER_UNION, true⟩
        [⟨(10, 20), none⟩] = (false, []) ∧
    tomoyo_check_clause (testEnv 15) none ⟨.TASK_UID, .NUMBER_UNION, false⟩
        [⟨(10, 20), none⟩] = (false, []) ∧
    tomoyo_check_clause (testEnv 25) none ⟨.TASK_UID, .NUMBER_UNION, false⟩
        [⟨(10, 20), none⟩] = (true, []) ∧
    tomoyo_check_clause (testEnv 150) none ⟨.TASK_UID, .NUMBER_UNION, true⟩
        [⟨(0, 0), some ("grp".toList)⟩] = (true, []) :=
  ⟨(tomoyo_clause_number_union_rule (testEnv 15) none
      ⟨.TASK_UID, .NUMBER_UNION, true⟩ [⟨(10, 20), none⟩] [⟨(10, 20), none⟩]
      [] ⟨(10, 20), none⟩ 15 15 rfl
      (Or.inl ⟨by decide, rfl, rfl, rfl⟩) rfl).trans (by decide),
   (tomoyo_clause_number_union_rule (testEnv 25) none
      ⟨.TASK_UID, .NUMBER_UNION, true⟩ [⟨(10, 20), none⟩] [⟨(10, 20), none⟩]
      [] ⟨(10, 20), none⟩ 25 25 rfl
      (Or.inl ⟨by decide, rfl, rfl, rfl⟩) rfl).trans (by decide),
   (tomoyo_clause_number_union_rule (testEnv 15) none
      ⟨.TASK_UID, .NUMBER_UNION, false⟩ [⟨(10, 20), none⟩] [⟨(10, 20), none⟩]
      [] ⟨(10, 20), none⟩ 15 15 rfl
      (Or.inl ⟨by decide, rfl, rfl, rfl⟩) rfl).trans (by decide),
   (tomoyo_clause_number_union_rule (testEnv 25) none
      ⟨.TASK_UID, .NUMBER_UNION, false⟩ [⟨(10, 20), none⟩] [⟨(10, 20), none⟩]
      [] ⟨(10, 20), none⟩ 25 25 rfl
      (Or.inl ⟨by decide, rfl, rfl, rfl⟩) rfl).trans (by decide),
   (tomoyo_clause_number_union_rule (testEnv 150) none
      ⟨.TASK_UID, .NUMBER_UNION, true⟩ [⟨(0, 0), some ("grp".toList)⟩]
      [⟨(0, 0), some ("grp".toList)⟩] [] ⟨(0, 0), some ("grp".toList)⟩
      150 150 rfl (Or.inl ⟨by decide, rfl, rfl, rfl⟩) rfl).trans (by decide)⟩

/-- C2 (amended): bit-operation clauses, which only arise when the right side
is not an inline operand (an inline right operand is handled by the interval
rule first).  Then: both sides bit-operands fails unconditionally; a left
bit-operand against a permission-bits path field succeeds iff
`(left_bits & right_bits) != 0` equals `equals` and against any other keyword
fails unconditionally; symmetrically for a right bit-operand, where a left
inline operand also fails unconditionally. -/
theorem tomoyo_clause_bitop_rule (env : Env) (obj : Option ObjInfo)
    (c : CondElement) (numbers : List NumberUnion) (lv rv : Nat)
    (hright : c.right ≠ CondIndex.NUMBER_UNION)
    (hl : tomoyo_eval_index env obj c.left = some lv)
    (hr : tomoyo_eval_index env obj c.right = some rv) :
    (tomoyo_is_bitop c.left = true → tomoyo_is_bitop c.right = true →
      tomoyo_check_clause env obj c numbers = (false, numbers)) ∧
    (tomoyo_is_bitop c.left = true → tomoyo_is_bitop c.right = false →
      tomoyo_check_clause env obj c numbers =
        ((if tomoyo_is_perm_selector c.right then
            (decide (lv &&& rv ≠ 0)) == c.equals
          else false), numbers)) ∧
    (tomoyo_is_bitop c.left = false → tomoyo_is_bitop c.right = true →
      c.left ≠ CondIndex.NUMBER_UNION →
      tomoyo_check_clause env obj c numbers =
        ((if tomoyo_is_perm_selector c.left then
            (decide (lv &&& rv ≠ 0)) == c.equals
          else false), numbers)) ∧
    (∀ u rest, c.left = CondIndex.NUMBER_UNION →
      tomoyo_is_bitop c.right = true → numbers = u :: rest →
      tomoyo_check_clause env obj c numbers = (false, rest)) := by
  refine ⟨?_, ?_, ?_, ?_⟩
  · intro hb1 hb2
    have hne := tomoyo_is_bitop_ne_number_union c.left hb1
    unfold tomoyo_check_clause
    rw [hl, hr]
    simp [hne, hright, hb1, hb2]
  · intro hb1 hb2
    have hne := tomoyo_is_bitop_ne_number_union c.left hb1
    unfold tomoyo_check_clause
    rw [hl, hr]
    simp [hne, hright, hb1, hb2]
  · intro hb1 hb2 hne
    unfold tomoyo_check_clause
    rw [hl, hr]
    simp [hne, hright, hb1, hb2]
  · intro u rest hlu hb2 hnums
    subst hnums
    have hb1 : tomoyo_is_bitop c.left = false := by
      rw [hlu]
      decide
    have hperm : tomoyo_is_perm_selector c.left = false := by
      rw [hlu]
      decide
    unfold tomoyo_check_clause
    rw [hl, hr]
    simp [hlu, hright, hb1, hb2, hperm]
    simp [tomoyo_is_bitop, tomoyo_is_perm_selector]

/-- Closed counterexample for C2 as frozen: `MODE_SETUID` is a bit-operand and
the right side here is the inline-operand sentinel — a selector other than a
permission-bits path field — yet the clause succeeds (interval overlap
`[2048,2048]` against `[2048,2048]`), instead of failing unconditionally. -/
theorem tomoyo_clause_bitop_counterexample :
    tomoyo_is_bitop CondIndex.MODE_SETUID = true ∧
    tomoyo_is_perm_selector CondIndex.NUMBER_UNION = false ∧
    tomoyo_check_clause (testEnv 0) none
      ⟨.MODE_SETUID, .NUMBER_UNION, true⟩ [⟨(2048, 2048), none⟩] =
      (true, []) := by
  refine ⟨rfl, rfl, ?_⟩
  decide

/-- Closed witness for C2 (amended): owner-execute against `path1.perm` of a
mode-`0700` file succeeds; two bit-operands always fail; a bit-operand against
`task.uid` fails. -/
theorem tomoyo_clause_bitop_rule_witness :
    tomoyo_check_clause (testEnv 0) (some testObj)
      ⟨.MODE_OWNER_EXECUTE, .PATH1_PERM, true⟩ [] = (true, []) ∧
    tomoyo_check_clause (testEnv 0) (some testObj)
      ⟨.MODE_OWNER_EXECUTE, .MODE_SETUID, true⟩ [] = (false, []) ∧
    tomoyo_check_clause (testEnv 0) (some testObj)
      ⟨.MODE_OWNER_EXECUTE, .TASK_UID, true⟩ [] = (false, []) :=
  ⟨((tomoyo_clause_bitop_rule (testEnv 0) (some testObj)
      ⟨.MODE_OWNER_EXECUTE, .PATH1_PERM, true⟩ [] 64 448 (by decide)
      (by decide) (by decide)).2.1 rfl rfl).trans (by decide),
   (tomoyo_clause_bitop_rule (testEnv 0) (some testObj)
      ⟨.MODE_OWNER_EXECUTE, .MODE_SETUID, true⟩ [] 64 2048 (by decide)
      (by decide) (by decide)).1 rfl rfl,
   ((tomoyo_clause_bitop_rule (testEnv 0) (some testObj)
      ⟨.MODE_OWNER_EXECUTE, .TASK_UID, true⟩ [] 64 0 (by decide)
      (by decide) (by decide)).2.1 rfl rfl).trans (by decide)⟩

/-! ## Helper lemmas: tokenization and restoration -/

theorem tomoyo_words_ne_nil : ∀ s : List Char, tomoyo_words s ≠ []
  | [] => by simp [tomoyo_words]
  | c :: rest => by
      unfold tomoyo_words
      by_cases hc : c = ' '
      · simp [hc]
      · simp only [if_neg hc]
        cases h : tomoyo_words rest <;> simp

theorem tomoyo_words_cons_form (s : List Char) :
    ∃ w ws, tomoyo_words s = w :: ws := by
  cases h : tomoyo_words s with
  | nil => exact absurd h (tomoyo_words_ne_nil s)
  | cons w ws => exact ⟨w, ws, rfl⟩

theorem tomoyo_join_words : ∀ s : List Char, tomoyo_join ' ' (tomoyo_words s) = s
  | [] => rfl
  | c :: rest => by
      by_cases hc : c = ' '
      · subst hc
        have hcons : tomoyo_words (' ' :: rest) = [] :: tomoyo_words rest := by
          simp [tomoyo_words]
        rw [hcons]
        obtain ⟨w, ws, h⟩ := tomoyo_words_cons_form rest
        rw [h]
        have IH := tomoyo_join_words rest
        rw [h] at IH
        simp only [tomoyo_join, List.nil_append]
        rw [IH]
      · obtain ⟨w, ws, h⟩ := tomoyo_words_cons_form rest
        have hcons : tomoyo_words (c :: rest) = (c :: w) :: ws := by
          unfold tomoyo_words
          rw [if_neg hc, h]
        rw [hcons]
        have IH := tomoyo_join_words rest
        rw [h] at IH
        cases ws with
        | nil =>
          simp only [tomoyo_join] at IH ⊢
          rw [IH]
        | cons v ws2 =>
          simp only [tomoyo_join] at IH ⊢
          rw [List.cons_append, IH]

theorem tomoyo_words_chars : ∀ (s w : List Char),
    w ∈ tomoyo_words s → ∀ c ∈ w, c ∈ s
  | [], w, hw => by
      simp only [tomoyo_words, List.mem_singleton] at hw
      subst hw
      simp
  | a :: rest, w, hw => by
      by_cases ha : a = ' '
      · rw [show tomoyo_words (a :: rest) = [] :: tomoyo_words rest from by
          simp [tomoyo_words, ha]] at hw
        rcases List.mem_cons.mp hw with rfl | hw2
        · simp
        · intro c hc
          exact List.mem_cons_of_mem _ (tomoyo_words_chars rest w hw2 c hc)
      · obtain ⟨w0, ws, h⟩ := tomoyo_words_cons_form rest
        rw [show tomoyo_words (a :: rest) = (a :: w0) :: ws from by
          unfold tomoyo_words
          rw [if_neg ha, h]] at hw
        rcases List.mem_cons.mp hw with rfl | hw2
        · intro c hc
          rcases List.mem_cons.mp hc with rfl | hc2
          · simp
          · refine List.mem_cons_of_mem _
              (tomoyo_words_chars rest w0 ?_ c hc2)
            rw [h]
            simp
        · intro c hc
          refine List.mem_cons_of_mem _ (tomoyo_words_chars rest w ?_ c hc)
          rw [h]
          simp [hw2]

theorem tomoyo_restore_append : ∀ (xs t : List Char) (f : Bool),
    NUL ∉ xs → tomoyo_restore (xs ++ t) f = xs ++ tomoyo_restore t f
  | [], _, _, _ => rfl
  | x :: xs, t, f, h => by
      have hx : ¬ x = NUL := fun hh => h (by simp [hh])
      simp only [List.cons_append, tomoyo_restore, if_neg hx]
      exact congrArg (x :: ·)
        (tomoyo_restore_append xs t f fun hm => h (List.mem_cons_of_mem _ hm))

theorem tomoyo_split_at_eq (ch : Char) : ∀ (s b a : List Char),
    tomoyo_split_at ch s = some (b, a) → s = b ++ ch :: a
  | [], _, _, h => by cases h
  | x :: xs, b, a, h => by
      by_cases hx : x = ch
      · rw [show tomoyo_split_at ch (x :: xs) = some ([], xs) from by
          simp [tomoyo_split_at, hx]] at h
        simp only [Option.some.injEq, Prod.mk.injEq] at h
        obtain ⟨rfl, rfl⟩ := h
        simp [hx]
      · unfold tomoyo_split_at at h
        rw [if_neg hx] at h
        cases hs : tomoyo_split_at ch xs with
        | none => rw [hs] at h; cases h
        | some p =>
          obtain ⟨b2, a2⟩ := p
          rw [hs] at h
          simp only [Option.some.injEq, Prod.mk.injEq] at h
          obtain ⟨rfl, rfl⟩ := h
          have IH := tomoyo_split_at_eq ch xs b2 a2 hs
          rw [List.cons_append, ← IH]

theorem tomoyo_split_clause_shape (w lw rwd mutw : List Char) (isn : Bool)
    (h : tomoyo_split_clause w = some (lw, isn, rwd, mutw)) :
    (isn = true ∧ w = lw ++ '!' :: '=' :: rwd ∧
      mutw = lw ++ NUL :: '=' :: rwd) ∨
    (isn = false ∧ w = lw ++ '=' :: rwd ∧ mutw = lw ++ NUL :: rwd ∧
      rwd.head? ≠ some '=') := by
  cases hs : tomoyo_split_at '=' w with
  | none => simp [tomoyo_split_clause, hs] at h
  | some p =>
    obtain ⟨before, after⟩ := p
    simp only [tomoyo_split_clause, hs] at h
    have hw := tomoyo_split_at_eq '=' w before after hs
    by_cases h1 : before = []
    · rw [if_pos h1] at h
      cases h
    · rw [if_neg h1] at h
      by_cases h2 : before.getLast? = some '!'
      · rw [if_pos h2] at h
        simp only [Option.some.injEq, Prod.mk.injEq] at h
        obtain ⟨rfl, rfl, rfl, rfl⟩ := h
        have hbe : before.dropLast ++ ['!'] = before := by
          have hx := List.dropLast_append_getLast h1
          rw [List.getLast?_eq_getLast before h1] at h2
          simp only [Option.some.injEq] at h2
          rw [h2] at hx
          exact hx
        refine Or.inl ⟨rfl, ?_, rfl⟩
        rw [hw, ← hbe]
        simp
      · rw [if_neg h2] at h
        by_cases h3 : after.head? = some '='
        · rw [if_pos h3] at h
          cases h
        · rw [if_neg h3] at h
          simp only [Option.some.injEq, Prod.mk.injEq] at h
          obtain ⟨rfl, rfl, rfl, rfl⟩ := h
          exact Or.inr ⟨rfl, hw, rfl, h3⟩

theorem tomoyo_restore_mut_isn (lw rwd t : List Char)
    (hlw : NUL ∉ lw) (hrwd : NUL ∉ rwd) :
    tomoyo_restore (lw ++ NUL :: '=' :: (rwd ++ t)) false =
      lw ++ '!' :: '=' :: (rwd ++ tomoyo_restore t true) := by
  rw [tomoyo_restore_append lw (NUL :: '=' :: (rwd ++ t)) false hlw]
  congr 1
  have h1 : tomoyo_restore (NUL :: '=' :: (rwd ++ t)) false =
      '!' :: tomoyo_restore ('=' :: (rwd ++ t)) true := by
    simp [tomoyo_restore, NUL]
  rw [h1]
  have h2 : tomoyo_restore ('=' :: (rwd ++ t)) true =
      '=' :: tomoyo_restore (rwd ++ t) true := by
    simp [tomoyo_restore, NUL]
  rw [h2, tomoyo_restore_append rwd t true hrwd]

theorem tomoyo_restore_mut_not (lw rwd t : List Char)
    (hlw : NUL ∉ lw) (hrwd : NUL ∉ rwd) (hhd : rwd.head? ≠ some '=')
    (ht : t.head? = none ∨ t.head? = some NUL) :
    tomoyo_restore (lw ++ NUL :: (rwd ++ t)) false =
      lw ++ '=' :: (rwd ++ tomoyo_restore t true) := by
  rw [tomoyo_restore_append lw (NUL :: (rwd ++ t)) false hlw]
  congr 1
  have hh : ¬ (rwd ++ t).head? = some '=' := by
    cases rwd with
    | nil =>
      simp only [List.nil_append]
      rcases ht with ht | ht <;> simp [ht, NUL]
    | cons v vs => simpa using hhd
  have h1 : tomoyo_restore (NUL :: (rwd ++ t)) false =
      '=' :: tomoyo_restore (rwd ++ t) true := by
    simp [tomoyo_restore, NUL]
    refine ⟨hhd, fun _ => ?_⟩
    rcases ht with ht2 | ht2
    · simp [ht2]
    · rw [ht2]
      intro hc
      exact absurd (Option.some.inj hc) (by decide)
  rw [h1, tomoyo_restore_append rwd t true hrwd]

theorem tomoyo_restore_word (w lw rwd mutw t : List Char) (isn : Bool)
    (hw : NUL ∉ w)
    (hsc : tomoyo_split_clause w = some (lw, isn, rwd, mutw))
    (ht : t.head? = none ∨ t.head? = some NUL) :
    tomoyo_restore (mutw ++ t) false = w ++ tomoyo_restore t true := by
  rcases tomoyo_split_clause_shape w lw rwd mutw isn hsc with
    ⟨-, hweq, hmut⟩ | ⟨-, hweq, hmut, hhd⟩
  · have hlw : NUL ∉ lw := fun hm => hw (by rw [hweq]; simp [hm])
    have hrwd : NUL ∉ rwd := fun hm => hw (by rw [hweq]; simp [hm])
    rw [hmut, hweq]
    simp only [List.append_assoc, List.cons_append]
    exact tomoyo_restore_mut_isn lw rwd t hlw hrwd
  · have hlw : NUL ∉ lw := fun hm => hw (by rw [hweq]; simp [hm])
    have hrwd : NUL ∉ rwd := fun hm => hw (by rw [hweq]; simp [hm])
    rw [hmut, hweq]
    simp only [List.append_assoc, List.cons_append]
    exact tomoyo_restore_mut_not lw rwd t hlw hrwd hhd ht

theorem tomoyo_dry_words_mw_ne_nil :
    ∀ (ws : List (List Char)) (c n : Nat) (mw : List (List Char)),
      ws ≠ [] → tomoyo_dry_words ws = some (c, n, mw) → mw ≠ []
  | [], _, _, _, hne, _ => absurd rfl hne
  | [w], c, n, mw, _, h => by
      by_cases hw : w = []
      · subst hw
        simp only [tomoyo_dry_words, if_pos rfl, Option.some.injEq,
          Prod.mk.injEq] at h
        obtain ⟨-, -, rfl⟩ := h
        simp
      · cases hsc : tomoyo_split_clause w with
        | none => simp [tomoyo_dry_words, if_neg hw, hsc] at h
        | some q =>
          obtain ⟨lw, isn, rwd, mutw⟩ := q
          simp only [tomoyo_dry_words, if_neg hw, hsc, Option.some.injEq,
            Prod.mk.injEq] at h
          obtain ⟨-, -, rfl⟩ := h
          simp
  | w :: v :: rest, c, n, mw, _, h => by
      cases hsc : tomoyo_split_clause w with
      | none => simp [tomoyo_dry_words, hsc] at h
      | some q =>
        obtain ⟨lw, isn, rwd, mutw⟩ := q
        cases hd : tomoyo_dry_words (v :: rest) with
        | none => simp [tomoyo_dry_words, hsc, hd] at h
        | some p =>
          obtain ⟨c2, n2, mws⟩ := p
          simp only [tomoyo_dry_words, hsc, hd, Option.some.injEq,
            Prod.mk.injEq] at h
          obtain ⟨-, -, rfl⟩ := h
          simp

theorem tomoyo_restore_dry :
    ∀ (ws : List (List Char)) (c n : Nat) (mw : List (List Char)),
      (∀ w ∈ ws, NUL ∉ w) → tomoyo_dry_words ws = some (c, n, mw) →
      tomoyo_restore (tomoyo_join NUL mw) false = tomoyo_join ' ' ws
  | [], c, n, mw, _, h => by
      simp only [tomoyo_dry_words, Option.some.injEq, Prod.mk.injEq] at h
      obtain ⟨-, -, rfl⟩ := h
      rfl
  | [w], c, n, mw, hnul, h => by
      by_cases hw : w = []
      · subst hw
        simp only [tomoyo_dry_words, if_pos rfl, Option.some.injEq,
          Prod.mk.injEq] at h
        obtain ⟨-, -, rfl⟩ := h
        rfl
      · cases hsc : tomoyo_split_clause w with
        | none => simp [tomoyo_dry_words, if_neg hw, hsc] at h
        | some q =>
          obtain ⟨lw, isn, rwd, mutw⟩ := q
          simp only [tomoyo_dry_words, if_neg hw, hsc, Option.some.injEq,
            Prod.mk.injEq] at h
          obtain ⟨-, -, rfl⟩ := h
          have hr := tomoyo_restore_word w lw rwd mutw [] isn
            (hnul w (by simp)) hsc (Or.inl rfl)
          simpa [tomoyo_join, tomoyo_restore] using hr
  | w :: v :: rest, c, n, mw, hnul, h => by
      cases hsc : tomoyo_split_clause w with
      | none => simp [tomoyo_dry_words, hsc] at h
      | some q =>
        obtain ⟨lw, isn, rwd, mutw⟩ := q
        cases hd : tomoyo_dry_words (v :: rest) with
        | none => simp [tomoyo_dry_words, hsc, hd] at h
        | some p =>
          obtain ⟨c2, n2, mws⟩ := p
          simp only [tomoyo_dry_words, hsc, hd, Option.some.injEq,
            Prod.mk.injEq] at h
          obtain ⟨-, -, rfl⟩ := h
          obtain ⟨m0, ms, rfl⟩ : ∃ m0 ms, mws = m0 :: ms := by
            cases hmw : mws with
            | nil =>
              rw [hmw] at hd
              exact absurd hd fun hh =>
                tomoyo_dry_words_mw_ne_nil (v :: rest) c2 n2 [] (by simp) hh
                  rfl
            | cons a b => exact ⟨a, b, rfl⟩
          have IH := tomoyo_restore_dry (v :: rest) c2 n2 (m0 :: ms)
            (fun x hx => hnul x (by simp [hx])) hd
          have hjoin : tomoyo_join NUL (mutw :: m0 :: ms) =
              mutw ++ NUL :: tomoyo_join NUL (m0 :: ms) := rfl
          have hjoin2 : tomoyo_join ' ' (w :: v :: rest) =
              w ++ ' ' :: tomoyo_join ' ' (v :: rest) := rfl
          rw [hjoin, hjoin2]
          have hr := tomoyo_restore_word w lw rwd mutw
            (NUL :: tomoyo_join NUL (m0 :: ms)) isn (hnul w (by simp)) hsc
            (Or.inr rfl)
          rw [hr]
          have hstep : tomoyo_restore (NUL :: tomoyo_join NUL (m0 :: ms)) true =
              ' ' :: tomoyo_restore (tomoyo_join NUL (m0 :: ms)) false := by
            simp [tomoyo_restore, NUL]
          rw [hstep, IH]

/-! ## Claim theorems: parser -/

/-- C5: whenever the sizing pass completes on an expression, the restoration
walk turns every NUL the tokenizer wrote back into its original byte (space,
`=`, or the `!` of `!=`) by parity bookkeeping, so the buffer handed to the
build pass is byte-for-byte the original input string. -/
theorem tomoyo_restore_after_sizing (s : List Char) (c n : Nat)
    (mw : List (List Char)) (hs : NUL ∉ s)
    (h : tomoyo_dry_words (tomoyo_words s) = some (c, n, mw)) :
    tomoyo_restore (tomoyo_join NUL mw) false = s := by
  have hx := tomoyo_restore_dry (tomoyo_words s) c n mw
    (fun w hw hc => hs (tomoyo_words_chars s w hw NUL hc)) h
  rw [hx, tomoyo_join_words]

/-- Closed witness for C5: the mutated buffer of `"a=b c!=d"` (operator and
separator bytes overwritten by NUL) restores to the original string. -/
theorem tomoyo_restore_after_sizing_witness :
    tomoyo_restore
      (tomoyo_join NUL [['a', NUL, 'b'], ['c', NUL, '=', 'd']]) false =
      ("a=b c!=d".toList) :=
  tomoyo_restore_after_sizing ("a=b c!=d".toList) 2 4
    [['a', NUL, 'b'], ['c', NUL, '=', 'd']] (by decide) (by decide)

theorem tomoyo_dry_words_fail :
    ∀ (ws : List (List Char)) (w : List Char),
      w ∈ tomoyo_live_words ws → tomoyo_split_clause w = none →
      tomoyo_dry_words ws = none
  | [], w, hw, _ => absurd hw (by simp [tomoyo_live_words])
  | [v], w, hw, hsc => by
      by_cases hv : v = []
      · subst hv
        simp [tomoyo_live_words] at hw
      · simp only [tomoyo_live_words, if_neg hv, List.mem_singleton] at hw
        subst hw
        simp [tomoyo_dry_words, if_neg hv, hsc]
  | v :: v2 :: rest, w, hw, hsc => by
      simp only [tomoyo_live_words] at hw
      rcases List.mem_cons.mp hw with rfl | hw2
      · simp [tomoyo_dry_words, hsc]
      · cases hsv : tomoyo_split_clause v with
        | none => simp [tomoyo_dry_words, hsv]
        | some q =>
          obtain ⟨a, b, c, d⟩ := q
          have hr := tomoyo_dry_words_fail (v2 :: rest) w hw2 hsc
          simp [tomoyo_dry_words, hsv, hr]

theorem tomoyo_build_words_fail :
    ∀ (ws : List (List Char)) (w : List Char),
      w ∈ tomoyo_live_words ws → tomoyo_build_clause w = none →
      tomoyo_build_words ws = none
  | [], w, hw, _ => absurd hw (by simp [tomoyo_live_words])
  | [v], w, hw, hbc => by
      by_cases hv : v = []
      · subst hv
        simp [tomoyo_live_words] at hw
      · simp only [tomoyo_live_words, if_neg hv, List.mem_singleton] at hw
        subst hw
        simp [tomoyo_build_words, if_neg hv, hbc]
  | v :: v2 :: rest, w, hw, hbc => by
      simp only [tomoyo_live_words] at hw
      rcases List.mem_cons.mp hw with rfl | hw2
      · simp [tomoyo_build_words, hbc]
      · cases hsv : tomoyo_build_clause v with
        | none => simp [tomoyo_build_words, hsv]
        | some q =>
          obtain ⟨a, b⟩ := q
          have hr := tomoyo_build_words_fail (v2 :: rest) w hw2 hbc
          simp [tomoyo_build_words, hsv, hr]

theorem tomoyo_build_clause_at_left (w lw rwd mutw : List Char) (isn : Bool)
    (hsc : tomoyo_split_clause w = some (lw, isn, rwd, mutw))
    (hty : tomoyo_condition_type lw = none)
    (hat : lw.head? = some '@') :
    tomoyo_build_clause w = none := by
  simp only [tomoyo_build_clause, hsc]
  simp [tomoyo_build_side, hty, hat]

/-- C7: an expression containing a clause without a single unescaped operator
at a non-initial position (no `=` at all, a leading `=`, or a bare `==`), or a
clause whose left side is a non-keyword group-reference literal (`@` word), is
rejected: parsing returns failure (the source frees the partially built object
on that path, a memory-management effect outside the model). -/
theorem tomoyo_parse_rejects_malformed (s : List Char) (hs : NUL ∉ s)
    (h : ∃ w ∈ tomoyo_live_words (tomoyo_words s),
        tomoyo_split_clause w = none ∨
        ∃ lw isn rwd mutw,
          tomoyo_split_clause w = some (lw, isn, rwd, mutw) ∧
          tomoyo_condition_type lw = none ∧ lw.head? = some '@') :
    tomoyo_get_condition s = none := by
  obtain ⟨w, hw, hcase⟩ := h
  rcases hcase with hsc | ⟨lw, isn, rwd, mutw, hsc, hty, hat⟩
  · simp [tomoyo_get_condition, tomoyo_dry_words_fail (tomoyo_words s) w hw hsc]
  · cases hd : tomoyo_dry_words (tomoyo_words s) with
    | none => simp [tomoyo_get_condition, hd]
    | some p =>
      obtain ⟨c, n, mw⟩ := p
      have hres : tomoyo_restore (tomoyo_join NUL mw) false = s := by
        have hx := tomoyo_restore_dry (tomoyo_words s) c n mw
          (fun x hx2 hc => hs (tomoyo_words_chars s x hx2 NUL hc)) hd
        rw [hx, tomoyo_join_words]
      have hfail := tomoyo_build_words_fail (tomoyo_words s) w hw
        (tomoyo_build_clause_at_left w lw rwd mutw isn hsc hty hat)
      simp [tomoyo_get_condition, hd, hres, hfail]

/-- Closed witness for C7: a bare `==` clause and a left-hand group reference
are both rejected. -/
theorem tomoyo_parse_rejects_malformed_witness :
    tomoyo_get_condition ("task.uid==0".toList) = none ∧
    tomoyo_get_condition ("@grp=task.uid".toList) = none :=
  ⟨tomoyo_parse_rejects_malformed ("task.uid==0".toList) (by decide)
     ⟨"task.uid==0".toList, by decide, Or.inl (by decide)⟩,
   tomoyo_parse_rejects_malformed ("@grp=task.uid".toList) (by decide)
     ⟨"@grp=task.uid".toList, by decide,
      Or.inr ⟨"@grp".toList, false, "task.uid".toList,
        "@grp".toList ++ NUL :: "task.uid".toList,
        by decide, by decide, by decide⟩⟩⟩

/-- Counterexample to C9 as frozen: the expression parses, but its operand
count is not 0 — the right-hand `0` of the first clause is counted and stored
as a numeric operand. -/
theorem tomoyo_parse_example_count_not_zero :
    ¬ ((tomoyo_get_condition ("task.uid=0 path1.uid!=task.uid".toList)).map
        (fun c => (c.condc, c.numbers_count)) = some (2, 0)) := by
  decide

/-- C9 (amended): parsing `"task.uid=0 path1.uid!=task.uid"` succeeds with
`condc = 2` and `numbers_count = 1` — three operands are keyword selectors
and the right-hand `0` is an inline numeric literal. -/
theorem tomoyo_parse_example_counts :
    (tomoyo_get_condition ("task.uid=0 path1.uid!=task.uid".toList)).map
        (fun c => (c.condc, c.numbers_count)) = some (2, 1) ∧
    (tomoyo_get_condition ("task.uid=0 path1.uid!=task.uid".toList)).map
        (fun c => c.condp) =
      some [⟨.TASK_UID, .NUMBER_UNION, true⟩,
            ⟨.PATH1_UID, .TASK_UID, false⟩] := by
  constructor <;> decide
